import Mathlib

/-
Verification of the flow/node core of the codebase_tutor repository.

Embedded source files:
  * src/src/app/pocketflow/nodes/base.py   (class BaseNode, method run)
  * src/src/flows/base.py                  (class BaseFlow: _validate_flow, run)

The shared mutable context ("store": a Python dict from str to arbitrary
values) is embedded as an insertion-ordered association list from String to
a closed universe of values.  Python dict assignment updates in place and
keeps insertion order; lookup returns the first (unique) matching key.
-/

/-- Universe of values stored in the shared context.  The interpreter itself
only ever writes strings, naturals, booleans, and the path (a list of node
identifiers); node payloads live in the same universe. -/
inductive Value where
  | str (s : String)
  | nat (n : Nat)
  | bool (b : Bool)
  | strList (l : List String)
  deriving DecidableEq, Repr

/-- The shared context; Python `dict[str, Any]` with insertion order. -/
abbrev Store := List (String × Value)

/-- Dictionary lookup: `store.get(k)` / `store[k]`. -/
def storeGet : Store → String → Option Value
  | [], _ => none
  | (k', v) :: rest, k => if k' = k then some v else storeGet rest k

/-- Dictionary assignment `store[k] = v`: replaces in place if the key is
present, otherwise appends (insertion order). -/
def storeSet : Store → String → Value → Store
  | [], k, v => [(k, v)]
  | (k', v') :: rest, k, v =>
    if k' = k then (k, v) :: rest else (k', v') :: storeSet rest k v

theorem storeGet_set_self (st : Store) (k : String) (v : Value) :
    storeGet (storeSet st k v) k = some v := by
  induction st with
  | nil => simp [storeGet, storeSet]
  | cons p rest ih =>
    by_cases h : p.1 = k
    · simp [storeSet, h, storeGet]
    · simp [storeSet, h, storeGet, ih]

theorem storeGet_set_ne (st : Store) (k k' : String) (v : Value) (h : k ≠ k') :
    storeGet (storeSet st k v) k' = storeGet st k' := by
  induction st with
  | nil => simp [storeGet, storeSet, h]
  | cons p rest ih =>
    by_cases hp : p.1 = k
    · simp [storeSet, hp, storeGet, h]
    · simp [storeSet, hp, storeGet, ih]

/-
BaseNode (src/src/app/pocketflow/nodes/base.py).

A node is its three lifecycle phases plus its name (`self.name`, defaulting
to the class name).  A phase that raises an exception is embedded as
returning `Except.error msg` where `msg` is the Python `str(e)`; a phase
that returns normally returns `Except.ok` of the (re-bound) store.
-/

/-- A PocketFlow node: name plus the three lifecycle phases
`prep` / `exec` / `post`. -/
structure BaseNode where
  name : String
  prep : Store → Except String Store
  exec : Store → Except String Store
  post : Store → Except String Store

/-- The error normalization done by the except block of `BaseNode.run`
(nodes/base.py lines 98-103): `store["action"] = "error"`,
`store["error"] = str(e)`, `store["error_node"] = self.name`. -/
def setNodeError (st : Store) (msg nodeName : String) : Store :=
  storeSet (storeSet (storeSet st "action" (Value.str "error"))
    "error" (Value.str msg)) "error_node" (Value.str nodeName)

/-- Embeds `BaseNode.run` (nodes/base.py lines 72-103):
run `prep`, then `exec` only if `store.get("action") != "error"`, then
`post`; any phase raising is caught and normalized via `setNodeError`
against the store bound at the time of the failure, and the store is
returned (the function is total: failures never propagate to the caller). -/
def BaseNode.run (node : BaseNode) (store : Store) : Store :=
  match node.prep store with
  | .error e => setNodeError store e node.name
  | .ok s1 =>
    match (if storeGet s1 "action" = some (Value.str "error")
           then Except.ok s1 else node.exec s1) with
    | .error e => setNodeError s1 e node.name
    | .ok s2 =>
      match node.post s2 with
      | .error e => setNodeError s2 e node.name
      | .ok s3 => s3

/-
BaseFlow (src/src/flows/base.py).

A flow definition maps node identifiers to a FlowNode configuration: the
node class to instantiate (node classes in the repository are stateless and
take no constructor arguments, so instantiating a fresh instance each step
is embedded as reusing the same `BaseNode` value) and a transition table
from action strings to next node identifiers.  Python dicts are embedded as
insertion-ordered association lists with unique keys.
-/

/-- Configuration for a node in a flow (flows/base.py, dataclass FlowNode). -/
structure FlowNode where
  node_class : BaseNode
  transitions : List (String × String)

/-- A flow definition: `dict[str, FlowNode]`. -/
abbrev FlowDefinition := List (String × FlowNode)

/-- Lookup of a node id in the flow definition dict. -/
def fdLookup : FlowDefinition → String → Option FlowNode
  | [], _ => none
  | (i, c) :: rest, k => if i = k then some c else fdLookup rest k

/-- Lookup of an action in a transition table dict. -/
def transLookup : List (String × String) → String → Option String
  | [], _ => none
  | (a, t) :: rest, k => if a = k then some t else transLookup rest k

/-- Membership of a transition target in `all_node_ids = keys ∪ {"end"}`
(flows/base.py lines 43-44). -/
def validTargetB (fd : FlowDefinition) (t : String) : Bool :=
  t == "end" || (fdLookup fd t).isSome

/-- Checks one node transition table: the body of the inner loop of
`_validate_flow` (flows/base.py lines 47-53); the first invalid target
raises ValueError. -/
def checkTransitions (fd : FlowDefinition) (nodeId : String) :
    List (String × String) → Except String Unit
  | [] => .ok ()
  | (action, target) :: rest =>
    if validTargetB fd target then checkTransitions fd nodeId rest
    else .error ("Node " ++ nodeId ++ " has transition " ++ action ++
      " pointing to unknown node " ++ target)

/-- The outer loop of `_validate_flow` over all flow definition entries
(flows/base.py lines 46-53). -/
def checkNodes (fd : FlowDefinition) :
    List (String × FlowNode) → Except String Unit
  | [] => .ok ()
  | (nodeId, cfg) :: rest =>
    match checkTransitions fd nodeId cfg.transitions with
    | .ok _ => checkNodes fd rest
    | .error e => .error e

/-- Embeds `BaseFlow._validate_flow` (flows/base.py lines 36-53), run by the
constructor (line 34): raising ValueError is embedded as `Except.error`.
Construction of a `BaseFlow` succeeds exactly when this returns `Except.ok`. -/
def validateFlow (fd : FlowDefinition) : Except String Unit :=
  if (fdLookup fd "start").isNone then .error "Flow must have a start node"
  else checkNodes fd fd

/-- Boolean success of flow construction. -/
def validateOkB (fd : FlowDefinition) : Bool :=
  match validateFlow fd with
  | .ok _ => true
  | .error _ => false

/-- Total restriction of `store["_flow_path"].append(current_node_id)`
(flows/base.py line 80), used inside `runLoopF`.  When the key is missing
or not bound to a list, Python raises an uncaught KeyError/AttributeError
out of `BaseFlow.run`; that raising behaviour is modelled exactly by
`appendPathE` below and propagated by `runLoopE`/`flowRunE`, while this
function returns the store unchanged.  `runLoopE_eq_runLoopF` proves the
two models agree (no raise occurs) whenever every node keeps `_flow_path`
bound to a list — the discipline the interpreter establishes at seeding and
the data model requires of nodes (reserved keys are written only by the
interpreter). -/
def appendPath (st : Store) (nodeId : String) : Store :=
  match storeGet st "_flow_path" with
  | some (Value.strList l) => storeSet st "_flow_path" (Value.strList (l ++ [nodeId]))
  | _ => st

/-- Whether the reserved path key is bound to a list, i.e. whether
`store["_flow_path"].append(...)` (flows/base.py line 80) succeeds on this
store. -/
def pathIsList (st : Store) : Bool :=
  match storeGet st "_flow_path" with
  | some (Value.strList _) => true
  | _ => false

/-- Exact embedding of `store["_flow_path"].append(current_node_id)`
(flows/base.py line 80): `none` is the uncaught KeyError (key missing) or
AttributeError (value not a list), which propagates out of `BaseFlow.run`
since line 80 sits outside the try block of lines 92-101. -/
def appendPathE (st : Store) (nodeId : String) : Option Store :=
  match storeGet st "_flow_path" with
  | some (Value.strList l) =>
    some (storeSet st "_flow_path" (Value.strList (l ++ [nodeId])))
  | _ => none

/-- The action token read from the context (flows/base.py line 104):
`store.get("action", "default")`.  A present non-string value compares
unequal to the string "error", misses every string key of the transition
table and thus resolves exactly as the token "default" does, so it is
embedded as "default". -/
def actionOf (st : Store) : String :=
  match storeGet st "action" with
  | some (Value.str a) => a
  | _ => "default"

/-- Next-node resolution (flows/base.py lines 111-113):
`transitions.get(action, transitions.get("default", "end"))`. -/
def resolveNext (ts : List (String × String)) (action : String) : String :=
  match transLookup ts action with
  | some t => t
  | none =>
    match transLookup ts "default" with
    | some d => d
    | none => "end"

/-- The `while` loop of `BaseFlow.run` (flows/base.py lines 76-119), with
the loop condition `current != "end" and steps < max_steps` expressed by
structural recursion on the fuel `max_steps - steps` (the counter `steps`
rises by exactly one per iteration, so fuel 0 is `steps >= max_steps`).
Returns the store, the current node id, and the step count at loop exit.
The `try` around node instantiation and `node.run` (lines 92-101) is a
safety net that cannot fire in this embedding because `BaseNode.run` is
total and node construction is pure. -/
def runLoopF (fd : FlowDefinition) :
    Nat → Store → String → Nat → Store × String × Nat
  | 0, store, current, steps => (store, current, steps)
  | fuel + 1, store, current, steps =>
    if current = "end" then (store, current, steps)
    else
      match fdLookup fd current with
      | none =>
        (storeSet (storeSet (appendPath store current)
            "action" (Value.str "error"))
          "error" (Value.str ("Unknown node: " ++ current)),
         current, steps + 1)
      | some cfg =>
        let store2 := BaseNode.run cfg.node_class (appendPath store current)
        let action := actionOf store2
        if action = "error" ∧ transLookup cfg.transitions "error" = none then
          (store2, current, steps + 1)
        else
          runLoopF fd fuel store2 (resolveNext cfg.transitions action) (steps + 1)

/-- Seeding of the reserved keys before the loop (flows/base.py lines
67-69): `store["_flow_name"] = self.name; store["_flow_path"] = []`. -/
def seedStore (initialStore : Store) (flowName : String) : Store :=
  storeSet (storeSet initialStore "_flow_name" (Value.str flowName))
    "_flow_path" (Value.strList [])

/-- Embeds `BaseFlow.run` (flows/base.py lines 55-134) for a flow whose
`flow_definition` is `fd` and whose `name` is `flowName`: seed the reserved
keys, run the loop from "start" with step counter 0, then apply the
max-steps guard `if steps >= max_steps` (line 121; note the guard does not
test whether `current` is "end") and record `_flow_steps` and
`_flow_completed` (true iff the loop exited at "end").  Total: a validly
constructed flow never raises. -/
def flowRun (fd : FlowDefinition) (flowName : String)
    (initialStore : Store) (maxSteps : Nat) : Store :=
  let r := runLoopF fd maxSteps (seedStore initialStore flowName) "start" 0
  let store1 := r.1
  let current := r.2.1
  let steps := r.2.2
  let store2 :=
    if maxSteps ≤ steps then
      storeSet (storeSet store1 "action" (Value.str "error"))
        "error" (Value.str ("Flow exceeded maximum steps (" ++
          toString maxSteps ++ ")"))
    else store1
  storeSet (storeSet store2 "_flow_steps" (Value.nat steps))
    "_flow_completed" (Value.bool (current == "end"))

/-- Mirror of `runLoopF` recording whether the `Unknown node` abort branch
(flows/base.py lines 83-87) is ever taken; it follows exactly the store and
control updates of `runLoopF` and returns true iff some iteration finds the
current node id missing from the flow definition. -/
def unknownReachedF (fd : FlowDefinition) : Nat → Store → String → Bool
  | 0, _, _ => false
  | fuel + 1, store, current =>
    if current = "end" then false
    else
      match fdLookup fd current with
      | none => true
      | some cfg =>
        let store2 := BaseNode.run cfg.node_class (appendPath store current)
        let action := actionOf store2
        if action = "error" ∧ transLookup cfg.transitions "error" = none then
          false
        else
          unknownReachedF fd fuel store2 (resolveNext cfg.transitions action)

/-- The `while` loop of `BaseFlow.run` with the path append embedded
exactly (`appendPathE`): `none` models the uncaught exception of
flows/base.py line 80 escaping `BaseFlow.run`.  The append happens before
the unknown-node check, matching lines 80-87; all other branches are those
of `runLoopF`. -/
def runLoopE (fd : FlowDefinition) :
    Nat → Store → String → Nat → Option (Store × String × Nat)
  | 0, store, current, steps => some (store, current, steps)
  | fuel + 1, store, current, steps =>
    if current = "end" then some (store, current, steps)
    else
      match appendPathE store current with
      | none => none
      | some store1 =>
        match fdLookup fd current with
        | none =>
          some (storeSet (storeSet store1 "action" (Value.str "error"))
              "error" (Value.str ("Unknown node: " ++ current)),
            current, steps + 1)
        | some cfg =>
          let store2 := BaseNode.run cfg.node_class store1
          let action := actionOf store2
          if action = "error" ∧ transLookup cfg.transitions "error" = none then
            some (store2, current, steps + 1)
          else
            runLoopE fd fuel store2 (resolveNext cfg.transitions action)
              (steps + 1)

/-- `BaseFlow.run` in the exact model: returns `none` when the run raises
(line 80 on a store whose path key is missing or not a list), otherwise
`some` of the returned context, with the same post-loop bookkeeping as
`flowRun`. -/
def flowRunE (fd : FlowDefinition) (flowName : String)
    (initialStore : Store) (maxSteps : Nat) : Option Store :=
  match runLoopE fd maxSteps (seedStore initialStore flowName) "start" 0 with
  | none => none
  | some r =>
    let store1 := r.1
    let current := r.2.1
    let steps := r.2.2
    let store2 :=
      if maxSteps ≤ steps then
        storeSet (storeSet store1 "action" (Value.str "error"))
          "error" (Value.str ("Flow exceeded maximum steps (" ++
            toString maxSteps ++ ")"))
      else store1
    some (storeSet (storeSet store2 "_flow_steps" (Value.nat steps))
      "_flow_completed" (Value.bool (current == "end")))

/-
Concrete nodes and flows used by the scenario parts of the spec
(spec section 8) and as witnesses.
-/

/-- A node whose three phases return the store unchanged and set no action
(like EchoNode of the spec concrete scenario). -/
def echoNode : BaseNode :=
  { name := "EchoNode"
    prep := fun st => Except.ok st
    exec := fun st => Except.ok st
    post := fun st => Except.ok st }

/-- A node that raises during `execute` with message "boom". -/
def raisingNode : BaseNode :=
  { name := "RaisingNode"
    prep := fun st => Except.ok st
    exec := fun _ => Except.error "boom"
    post := fun st => Except.ok st }

/-- A node whose `prep` sets the error action; its `exec` would write a
sentinel field if it ever ran. -/
def prepErrNode : BaseNode :=
  { name := "PrepErrNode"
    prep := fun st => Except.ok (storeSet st "action" (Value.str "error"))
    exec := fun st => Except.ok (storeSet st "sentinel" (Value.nat 1))
    post := fun st => Except.ok st }

/-- Flow with a single start node transitioning to "end" on the default
action. -/
def echoFd : FlowDefinition :=
  [("start", { node_class := echoNode, transitions := [("default", "end")] })]

/-- Flow whose single node loops back to itself: a cycle only the
max-steps guard breaks. -/
def loopFd : FlowDefinition :=
  [("start", { node_class := echoNode, transitions := [("default", "start")] })]

/-- Flow whose start node raises in `execute` and is wired with an
error-to-"end" edge. -/
def errEdgeFd : FlowDefinition :=
  [("start", { node_class := raisingNode, transitions := [("error", "end")] })]

/-- Flow whose start node raises in `execute` with no error edge. -/
def errNoEdgeFd : FlowDefinition :=
  [("start", { node_class := raisingNode, transitions := [] })]

/-
Helper lemmas about validation and the execution loop, shared by several
claim proofs below.
-/

theorem checkTransitions_ok_iff (fd : FlowDefinition) (nid : String)
    (ts : List (String × String)) :
    checkTransitions fd nid ts = .ok () ↔
      ∀ q ∈ ts, validTargetB fd q.2 = true := by
  induction ts with
  | nil => simp [checkTransitions]
  | cons q rest ih =>
    obtain ⟨a, t⟩ := q
    by_cases h : validTargetB fd t
    · simp [checkTransitions, h, ih]
    · simp [checkTransitions, h]

theorem checkNodes_ok_iff (fd : FlowDefinition) (l : List (String × FlowNode)) :
    checkNodes fd l = .ok () ↔
      ∀ p ∈ l, checkTransitions fd p.1 p.2.transitions = .ok () := by
  induction l with
  | nil => simp [checkNodes]
  | cons p rest ih =>
    obtain ⟨nid, cfg⟩ := p
    cases hct : checkTransitions fd nid cfg.transitions with
    | ok u => cases u; simp [checkNodes, hct, ih]
    | error e => simp [checkNodes, hct]

/-- Successful construction characterized: `_validate_flow` accepts exactly
the definitions with a "start" key and all transition targets in
`keys ∪ {"end"}`. -/
theorem validateOkB_spec (fd : FlowDefinition) :
    validateOkB fd = true ↔
      ((fdLookup fd "start").isSome = true
       ∧ ∀ p ∈ fd, ∀ q ∈ p.2.transitions,
           (q.2 = "end" ∨ (fdLookup fd q.2).isSome = true)) := by
  have hok : validateOkB fd = true ↔ validateFlow fd = .ok () := by
    cases h : validateFlow fd with
    | ok u => cases u; simp [validateOkB, h]
    | error e => simp [validateOkB, h]
  rw [hok]
  cases hstart : fdLookup fd "start" with
  | none => simp [validateFlow, hstart]
  | some c =>
    simp [validateFlow, hstart, checkNodes_ok_iff, checkTransitions_ok_iff,
      validTargetB]

theorem fdLookup_mem (fd : FlowDefinition) (k : String) (c : FlowNode)
    (h : fdLookup fd k = some c) : (k, c) ∈ fd := by
  induction fd with
  | nil => simp [fdLookup] at h
  | cons p rest ih =>
    obtain ⟨p1, p2⟩ := p
    by_cases hp : p1 = k
    · rw [fdLookup, if_pos hp] at h
      subst hp
      cases h
      exact List.mem_cons_self _ _
    · rw [fdLookup, if_neg hp] at h
      exact List.mem_cons_of_mem _ (ih h)

theorem transLookup_mem (ts : List (String × String)) (k t : String)
    (h : transLookup ts k = some t) : (k, t) ∈ ts := by
  induction ts with
  | nil => simp [transLookup] at h
  | cons p rest ih =>
    obtain ⟨p1, p2⟩ := p
    by_cases hp : p1 = k
    · rw [transLookup, if_pos hp] at h
      subst hp
      cases h
      exact List.mem_cons_self _ _
    · rw [transLookup, if_neg hp] at h
      exact List.mem_cons_of_mem _ (ih h)

/-- The resolved next node is either a target of the transition table or
the literal "end". -/
theorem resolveNext_mem_or_end (ts : List (String × String)) (a : String) :
    (∃ k, (k, resolveNext ts a) ∈ ts) ∨ resolveNext ts a = "end" := by
  unfold resolveNext
  cases h1 : transLookup ts a with
  | some t => exact Or.inl ⟨a, transLookup_mem ts a t h1⟩
  | none =>
    cases h2 : transLookup ts "default" with
    | some d => exact Or.inl ⟨"default", transLookup_mem ts "default" d h2⟩
    | none => exact Or.inr rfl

/-- Unfolding of one continuing loop iteration. -/
theorem runLoopF_succ_continue (fd : FlowDefinition) (fuel : Nat)
    (store : Store) (current : String) (steps : Nat) (cfg : FlowNode)
    (hend : current ≠ "end") (hcfg : fdLookup fd current = some cfg)
    (hbr : ¬(actionOf (BaseNode.run cfg.node_class (appendPath store current))
              = "error"
            ∧ transLookup cfg.transitions "error" = none)) :
    runLoopF fd (fuel + 1) store current steps =
      runLoopF fd fuel (BaseNode.run cfg.node_class (appendPath store current))
        (resolveNext cfg.transitions
          (actionOf (BaseNode.run cfg.node_class (appendPath store current))))
        (steps + 1) := by
  rw [runLoopF, if_neg hend, hcfg]
  simp only [if_neg hbr]

/-- Unfolding of one iteration that breaks on an unhandled error action. -/
theorem runLoopF_succ_break (fd : FlowDefinition) (fuel : Nat)
    (store : Store) (current : String) (steps : Nat) (cfg : FlowNode)
    (hend : current ≠ "end") (hcfg : fdLookup fd current = some cfg)
    (hact : actionOf (BaseNode.run cfg.node_class (appendPath store current))
              = "error")
    (htr : transLookup cfg.transitions "error" = none) :
    runLoopF fd (fuel + 1) store current steps =
      (BaseNode.run cfg.node_class (appendPath store current),
       current, steps + 1) := by
  rw [runLoopF, if_neg hend, hcfg]
  simp only [if_pos (And.intro hact htr)]

/-- Unfolding of one unknown-mirror iteration that breaks on an unhandled
error action. -/
theorem unknownReachedF_succ_break (fd : FlowDefinition) (fuel : Nat)
    (store : Store) (current : String) (cfg : FlowNode)
    (hend : current ≠ "end") (hcfg : fdLookup fd current = some cfg)
    (hbr : actionOf (BaseNode.run cfg.node_class (appendPath store current))
              = "error"
           ∧ transLookup cfg.transitions "error" = none) :
    unknownReachedF fd (fuel + 1) store current = false := by
  rw [unknownReachedF, if_neg hend, hcfg]
  simp only [if_pos hbr]

/-- Unfolding of one continuing unknown-mirror iteration. -/
theorem unknownReachedF_succ_continue (fd : FlowDefinition) (fuel : Nat)
    (store : Store) (current : String) (cfg : FlowNode)
    (hend : current ≠ "end") (hcfg : fdLookup fd current = some cfg)
    (hbr : ¬(actionOf (BaseNode.run cfg.node_class (appendPath store current))
              = "error"
            ∧ transLookup cfg.transitions "error" = none)) :
    unknownReachedF fd (fuel + 1) store current =
      unknownReachedF fd fuel
        (BaseNode.run cfg.node_class (appendPath store current))
        (resolveNext cfg.transitions
          (actionOf (BaseNode.run cfg.node_class (appendPath store current)))) := by
  rw [unknownReachedF, if_neg hend, hcfg]
  simp only [if_neg hbr]

/-- Invariant: starting from a node id that is "end" or defined, a valid
flow never takes the unknown-node branch. -/
theorem unknownReachedF_false_of_valid (fd : FlowDefinition)
    (hval : validateOkB fd = true) :
    ∀ fuel store current,
      (current = "end" ∨ (fdLookup fd current).isSome = true) →
      unknownReachedF fd fuel store current = false := by
  have hspec := (validateOkB_spec fd).mp hval
  intro fuel
  induction fuel with
  | zero => intro store current _; rfl
  | succ n ih =>
    intro store current hcur
    by_cases hend : current = "end"
    · rw [unknownReachedF, if_pos hend]
    · have hsome : (fdLookup fd current).isSome = true := by
        rcases hcur with h | h
        · exact absurd h hend
        · exact h
      obtain ⟨cfg, hcfg⟩ := Option.isSome_iff_exists.mp hsome
      by_cases hbr : actionOf (BaseNode.run cfg.node_class (appendPath store current))
            = "error"
          ∧ transLookup cfg.transitions "error" = none
      · exact unknownReachedF_succ_break fd n store current cfg hend hcfg hbr
      · rw [unknownReachedF_succ_continue fd n store current cfg hend hcfg hbr]
        apply ih
        rcases resolveNext_mem_or_end cfg.transitions
            (actionOf (BaseNode.run cfg.node_class (appendPath store current))) with
          ⟨k, hk⟩ | hend2
        · have hmem := fdLookup_mem fd current cfg hcfg
          rcases hspec.2 (current, cfg) hmem (k, _) hk with h | h
          · exact Or.inl h
          · exact Or.inr h
        · exact Or.inl hend2

/-- The step counter of the loop never exceeds the available fuel. -/
theorem runLoopF_steps_le (fd : FlowDefinition) :
    ∀ fuel store current steps,
      (runLoopF fd fuel store current steps).2.2 ≤ steps + fuel := by
  intro fuel
  induction fuel with
  | zero => intro store current steps; simp [runLoopF]
  | succ n ih =>
    intro store current steps
    by_cases hend : current = "end"
    · rw [runLoopF, if_pos hend]
      show steps ≤ steps + (n + 1)
      omega
    · rw [runLoopF, if_neg hend]
      cases hcfg : fdLookup fd current with
      | none =>
        show steps + 1 ≤ steps + (n + 1)
        omega
      | some cfg =>
        by_cases hbr : actionOf (BaseNode.run cfg.node_class (appendPath store current))
              = "error"
            ∧ transLookup cfg.transitions "error" = none
        · simp only [if_pos hbr]
          show steps + 1 ≤ steps + (n + 1)
          omega
        · simp only [if_neg hbr]
          have h := ih (BaseNode.run cfg.node_class (appendPath store current))
            (resolveNext cfg.transitions
              (actionOf (BaseNode.run cfg.node_class (appendPath store current))))
            (steps + 1)
          omega

/-- A store whose path key holds a list has the path key present. -/
theorem pathIsList_isSome (st : Store) (h : pathIsList st = true) :
    (storeGet st "_flow_path").isSome = true := by
  cases hg : storeGet st "_flow_path" with
  | none => simp [pathIsList, hg] at h
  | some v => simp [hg]

/-- Writing any other key leaves the path-is-a-list property unchanged. -/
theorem pathIsList_set_ne (st : Store) (k : String) (v : Value)
    (h : k ≠ "_flow_path") : pathIsList (storeSet st k v) = pathIsList st := by
  unfold pathIsList
  rw [storeGet_set_ne st k "_flow_path" v h]

/-- Appending to the path keeps it a list. -/
theorem appendPath_pathIsList (st : Store) (k : String)
    (h : pathIsList st = true) : pathIsList (appendPath st k) = true := by
  cases hg : storeGet st "_flow_path" with
  | none => simp [pathIsList, hg] at h
  | some v =>
    cases v with
    | str s => simp [pathIsList, hg] at h
    | nat n => simp [pathIsList, hg] at h
    | bool b => simp [pathIsList, hg] at h
    | strList l => simp [appendPath, hg, pathIsList, storeGet_set_self]

/-- On stores whose path key holds a list, the exact append does not raise
and agrees with the total restriction. -/
theorem appendPathE_eq (st : Store) (k : String) (h : pathIsList st = true) :
    appendPathE st k = some (appendPath st k) := by
  cases hg : storeGet st "_flow_path" with
  | none => simp [pathIsList, hg] at h
  | some v =>
    cases v with
    | str s => simp [pathIsList, hg] at h
    | nat n => simp [pathIsList, hg] at h
    | bool b => simp [pathIsList, hg] at h
    | strList l => simp [appendPathE, appendPath, hg]

/-- The loop preserves the path-is-a-list discipline, provided the flow
nodes do (reserved keys are written only by the interpreter). -/
theorem runLoopF_pathIsList (fd : FlowDefinition)
    (hnodes : ∀ i c, fdLookup fd i = some c → ∀ st,
      pathIsList st = true →
      pathIsList (BaseNode.run c.node_class st) = true) :
    ∀ fuel store current steps, pathIsList store = true →
      pathIsList (runLoopF fd fuel store current steps).1 = true := by
  intro fuel
  induction fuel with
  | zero => intro store current steps h; exact h
  | succ n ih =>
    intro store current steps h
    by_cases hend : current = "end"
    · rw [runLoopF, if_pos hend]
      exact h
    · rw [runLoopF, if_neg hend]
      cases hcfg : fdLookup fd current with
      | none =>
        show pathIsList (storeSet (storeSet (appendPath store current)
            "action" (Value.str "error"))
          "error" (Value.str ("Unknown node: " ++ current))) = true
        rw [pathIsList_set_ne _ _ _ (by decide),
          pathIsList_set_ne _ _ _ (by decide)]
        exact appendPath_pathIsList store current h
      | some cfg =>
        have h2 := hnodes current cfg hcfg (appendPath store current)
          (appendPath_pathIsList store current h)
        by_cases hbr : actionOf (BaseNode.run cfg.node_class (appendPath store current))
              = "error"
            ∧ transLookup cfg.transitions "error" = none
        · simp only [if_pos hbr]
          exact h2
        · simp only [if_neg hbr]
          exact ih _ _ _ h2

/-- Under the same discipline the exact loop never raises and agrees with
the total loop. -/
theorem runLoopE_eq_runLoopF (fd : FlowDefinition)
    (hnodes : ∀ i c, fdLookup fd i = some c → ∀ st,
      pathIsList st = true →
      pathIsList (BaseNode.run c.node_class st) = true) :
    ∀ fuel store current steps, pathIsList store = true →
      runLoopE fd fuel store current steps
        = some (runLoopF fd fuel store current steps) := by
  intro fuel
  induction fuel with
  | zero => intro store current steps _; rfl
  | succ n ih =>
    intro store current steps h
    by_cases hend : current = "end"
    · rw [runLoopE, runLoopF]
      simp only [if_pos hend]
    · rw [runLoopE, runLoopF]
      simp only [if_neg hend]
      rw [appendPathE_eq store current h]
      cases hcfg : fdLookup fd current with
      | none => rfl
      | some cfg =>
        have h2 := hnodes current cfg hcfg (appendPath store current)
          (appendPath_pathIsList store current h)
        by_cases hbr : actionOf (BaseNode.run cfg.node_class (appendPath store current))
              = "error"
            ∧ transLookup cfg.transitions "error" = none
        · simp only [if_pos hbr]
        · simp only [if_neg hbr]
          exact ih _ _ _ h2

/-- The seeded store satisfies the discipline, so a run of a flow whose
nodes keep the path key a list never raises: the exact model returns
exactly the context `flowRun` computes. -/
theorem flowRunE_eq (fd : FlowDefinition) (flowName : String) (store : Store)
    (maxSteps : Nat)
    (hnodes : ∀ i c, fdLookup fd i = some c → ∀ st,
      pathIsList st = true →
      pathIsList (BaseNode.run c.node_class st) = true) :
    flowRunE fd flowName store maxSteps
      = some (flowRun fd flowName store maxSteps) := by
  have hseed : pathIsList (seedStore store flowName) = true := by
    simp [pathIsList, seedStore, storeGet_set_self]
  unfold flowRunE flowRun
  rw [runLoopE_eq_runLoopF fd hnodes maxSteps (seedStore store flowName)
    "start" 0 hseed]

/-- A pass-through node run is the identity on the store. -/
theorem echoNode_run_id (st : Store) : BaseNode.run echoNode st = st := by
  simp [BaseNode.run, echoNode]

/-- C3: `BaseNode.run` invokes the phases in order prepare, execute,
finalize, invoking `exec` only when the action after `prep` is not the
reserved error token: when `prep` set the error action, the result is
independent of the `exec` phase (so `exec` is never invoked) yet `post` is
still applied to the post-`prep` context; otherwise the result is `post`
applied to the `exec` result. -/
theorem c3_phase_order (node : BaseNode) (store s1 : Store)
    (hprep : node.prep store = .ok s1) :
    (storeGet s1 "action" = some (Value.str "error") →
      (∀ f, BaseNode.run { node with exec := f } store = node.run store)
      ∧ node.run store =
        (match node.post s1 with
         | .error e => setNodeError s1 e node.name
         | .ok s3 => s3))
  ∧ (storeGet s1 "action" ≠ some (Value.str "error") →
      ∀ s2, node.exec s1 = .ok s2 →
      node.run store =
        (match node.post s2 with
         | .error e => setNodeError s2 e node.name
         | .ok s3 => s3)) := by
  constructor
  · intro herr
    constructor
    · intro f; simp [BaseNode.run, hprep, herr]
    · simp [BaseNode.run, hprep, herr]
  · intro hne s2 hexec
    simp [BaseNode.run, hprep, hne, hexec]

/-- Witness for C3: a node whose `prep` sets the error action; any `exec`
phase gives the same run result, and the run result is the `post` of the
post-`prep` context. -/
theorem c3_phase_order_witness :
    BaseNode.run { prepErrNode with exec := fun st => Except.ok st } []
      = BaseNode.run prepErrNode []
  ∧ BaseNode.run prepErrNode [] = [("action", Value.str "error")] := by
  have h := (c3_phase_order prepErrNode [] [("action", Value.str "error")]
    rfl).1 (by decide)
  exact ⟨h.1 _, h.2.trans rfl⟩

/-- C4: any phase failing inside `BaseNode.run` is caught and normalized:
the run returns `setNodeError` of the store bound at the failure, whose
action field is the error token, whose error field is the failure text, and
whose error-node field is the node name; `BaseNode.run` is a total
function, so no failure ever propagates to the caller. -/
theorem c4_node_failure_boundary (node : BaseNode) (store : Store) :
    (∀ e, node.prep store = .error e →
      node.run store = setNodeError store e node.name)
  ∧ (∀ s1 e, node.prep store = .ok s1 →
      storeGet s1 "action" ≠ some (Value.str "error") →
      node.exec s1 = .error e →
      node.run store = setNodeError s1 e node.name)
  ∧ (∀ s1 s2 e, node.prep store = .ok s1 →
      storeGet s1 "action" ≠ some (Value.str "error") →
      node.exec s1 = .ok s2 → node.post s2 = .error e →
      node.run store = setNodeError s2 e node.name)
  ∧ (∀ s1 e, node.prep store = .ok s1 →
      storeGet s1 "action" = some (Value.str "error") →
      node.post s1 = .error e →
      node.run store = setNodeError s1 e node.name)
  ∧ (∀ st e n,
      storeGet (setNodeError st e n) "action" = some (Value.str "error")
      ∧ storeGet (setNodeError st e n) "error" = some (Value.str e)
      ∧ storeGet (setNodeError st e n) "error_node" = some (Value.str n)) := by
  refine ⟨?_, ?_, ?_, ?_, ?_⟩
  · intro e h; simp [BaseNode.run, h]
  · intro s1 e h1 h2 h3; simp [BaseNode.run, h1, h2, h3]
  · intro s1 s2 e h1 h2 h3 h4; simp [BaseNode.run, h1, h2, h3, h4]
  · intro s1 e h1 h2 h3; simp [BaseNode.run, h1, h2, h3]
  · intro st e n
    refine ⟨?_, ?_, ?_⟩
    · rw [setNodeError, storeGet_set_ne _ _ _ _ (by decide),
        storeGet_set_ne _ _ _ _ (by decide), storeGet_set_self]
    · rw [setNodeError, storeGet_set_ne _ _ _ _ (by decide),
        storeGet_set_self]
    · rw [setNodeError, storeGet_set_self]

/-- Witness for C4: a node raising "boom" in `exec` returns the normalized
error context with the reserved error triple set. -/
theorem c4_node_failure_boundary_witness :
    BaseNode.run raisingNode [] = setNodeError [] "boom" "RaisingNode"
  ∧ storeGet (BaseNode.run raisingNode []) "action" = some (Value.str "error")
  ∧ storeGet (BaseNode.run raisingNode []) "error" = some (Value.str "boom")
  ∧ storeGet (BaseNode.run raisingNode []) "error_node"
      = some (Value.str "RaisingNode") := by
  have h := (c4_node_failure_boundary raisingNode []).2.1 [] "boom"
    rfl (by decide) rfl
  exact ⟨h, by decide, by decide, by decide⟩

/-- C10: the skip decision of `BaseNode.run` inspects only the current
value of the action field: if the incoming context already carries the
error token and `prep` leaves the action field unchanged, `exec` is skipped
(the result is independent of the `exec` phase) and the result is `post`
applied to the post-`prep` context. -/
theorem c10_skip_inspects_action_value (node : BaseNode) (store s1 : Store)
    (hact : storeGet store "action" = some (Value.str "error"))
    (hprep : node.prep store = .ok s1)
    (hsame : storeGet s1 "action" = storeGet store "action") :
    (∀ f, BaseNode.run { node with exec := f } store = node.run store)
  ∧ node.run store =
      (match node.post s1 with
       | .error e => setNodeError s1 e node.name
       | .ok s3 => s3) := by
  have herr : storeGet s1 "action" = some (Value.str "error") :=
    hsame.trans hact
  constructor
  · intro f; simp [BaseNode.run, hprep, herr]
  · simp [BaseNode.run, hprep, herr]

/-- Witness for C10: a pass-through node run on a context already carrying
the error action returns it unchanged (so its `exec` never ran). -/
theorem c10_skip_inspects_action_value_witness :
    BaseNode.run echoNode [("action", Value.str "error")]
      = [("action", Value.str "error")] := by
  have h := c10_skip_inspects_action_value echoNode
    [("action", Value.str "error")] [("action", Value.str "error")]
    (by decide) rfl rfl
  exact h.2.trans rfl

/-- C5: flow construction succeeds (validation raises no error) iff the
definition has a "start" key and every transition target of every node is a
defined node id or the literal "end". -/
theorem c5_eager_validation (fd : FlowDefinition) :
    validateOkB fd = true ↔
      ((fdLookup fd "start").isSome = true
       ∧ ∀ p ∈ fd, ∀ q ∈ p.2.transitions,
           (q.2 = "end" ∨ (fdLookup fd q.2).isSome = true)) :=
  validateOkB_spec fd

/-- C7: at every continuing step the next node id is resolved from the
action token (the string value of the action field, or "default" when that
field is unset) by looking the token up in the current node transition
table, then falling back to the table "default" entry, then to "end". -/
theorem c7_next_resolution :
    (∀ st, storeGet st "action" = none → actionOf st = "default")
  ∧ (∀ st a, storeGet st "action" = some (Value.str a) → actionOf st = a)
  ∧ (∀ ts a t, transLookup ts a = some t → resolveNext ts a = t)
  ∧ (∀ ts a d, transLookup ts a = none → transLookup ts "default" = some d →
      resolveNext ts a = d)
  ∧ (∀ ts a, transLookup ts a = none → transLookup ts "default" = none →
      resolveNext ts a = "end")
  ∧ (∀ fd fuel store current steps cfg, current ≠ "end" →
      fdLookup fd current = some cfg →
      ¬(actionOf (BaseNode.run cfg.node_class (appendPath store current))
          = "error"
        ∧ transLookup cfg.transitions "error" = none) →
      runLoopF fd (fuel + 1) store current steps =
        runLoopF fd fuel
          (BaseNode.run cfg.node_class (appendPath store current))
          (resolveNext cfg.transitions
            (actionOf (BaseNode.run cfg.node_class (appendPath store current))))
          (steps + 1)) := by
  refine ⟨?_, ?_, ?_, ?_, ?_, ?_⟩
  · intro st h; simp [actionOf, h]
  · intro st a h; simp [actionOf, h]
  · intro ts a t h; simp [resolveNext, h]
  · intro ts a d h1 h2; simp [resolveNext, h1, h2]
  · intro ts a h1 h2; simp [resolveNext, h1, h2]
  · intro fd fuel store current steps cfg h1 h2 h3
    exact runLoopF_succ_continue fd fuel store current steps cfg h1 h2 h3

/-- Witness for C7: on the one-node flow, the first step hands control to
the resolved next node "end" (table miss on "default" falls back to the
"default" entry). -/
theorem c7_next_resolution_witness :
    runLoopF echoFd 2 (seedStore [] "F") "start" 0 =
      runLoopF echoFd 1
        (BaseNode.run echoNode (appendPath (seedStore [] "F") "start"))
        "end" 1 := by
  have h := c7_next_resolution.2.2.2.2.2 echoFd 1 (seedStore [] "F") "start" 0
    { node_class := echoNode, transitions := [("default", "end")] }
    (by decide) rfl (by decide)
  exact h.trans (by decide)

/-- C1: when the action read after a node run equals the reserved error
token, the loop breaks iff the node transition table has no "error"
entry, and otherwise follows that entry as a normal transition; concretely,
a node raising in `exec` wired with an error-to-"end" edge completes the
run (flag true, action "error", error "boom"), while the same node without
the edge halts there (flag false, same error fields, path = ["start"]). -/
theorem c1_error_edge_semantics :
    (∀ fd fuel store current steps cfg, current ≠ "end" →
      fdLookup fd current = some cfg →
      actionOf (BaseNode.run cfg.node_class (appendPath store current))
        = "error" →
      transLookup cfg.transitions "error" = none →
      runLoopF fd (fuel + 1) store current steps =
        (BaseNode.run cfg.node_class (appendPath store current),
         current, steps + 1))
  ∧ (∀ fd fuel store current steps cfg t, current ≠ "end" →
      fdLookup fd current = some cfg →
      actionOf (BaseNode.run cfg.node_class (appendPath store current))
        = "error" →
      transLookup cfg.transitions "error" = some t →
      runLoopF fd (fuel + 1) store current steps =
        runLoopF fd fuel
          (BaseNode.run cfg.node_class (appendPath store current))
          t (steps + 1))
  ∧ (storeGet (flowRun errEdgeFd "F" [] 100) "_flow_completed"
       = some (Value.bool true)
     ∧ storeGet (flowRun errEdgeFd "F" [] 100) "action"
       = some (Value.str "error")
     ∧ storeGet (flowRun errEdgeFd "F" [] 100) "error"
       = some (Value.str "boom"))
  ∧ (storeGet (flowRun errNoEdgeFd "F" [] 100) "_flow_completed"
       = some (Value.bool false)
     ∧ storeGet (flowRun errNoEdgeFd "F" [] 100) "action"
       = some (Value.str "error")
     ∧ storeGet (flowRun errNoEdgeFd "F" [] 100) "error"
       = some (Value.str "boom")
     ∧ storeGet (flowRun errNoEdgeFd "F" [] 100) "_flow_path"
       = some (Value.strList ["start"])) := by
  refine ⟨?_, ?_, ⟨by decide, by decide, by decide⟩,
    ⟨by decide, by decide, by decide, by decide⟩⟩
  · intro fd fuel store current steps cfg h1 h2 h3 h4
    exact runLoopF_succ_break fd fuel store current steps cfg h1 h2 h3 h4
  · intro fd fuel store current steps cfg t h1 h2 h3 h4
    have hstep := runLoopF_succ_continue fd fuel store current steps cfg h1 h2
      (by simp [h4])
    rw [hstep, h3]
    have hres : resolveNext cfg.transitions "error" = t := by
      simp [resolveNext, h4]
    rw [hres]

/-- Witness for C1: the break branch applied to the concrete edge-less
erroring flow. -/
theorem c1_error_edge_semantics_witness :
    runLoopF errNoEdgeFd 100 (seedStore [] "F") "start" 0 =
      (BaseNode.run raisingNode (appendPath (seedStore [] "F") "start"),
       "start", 1) := by
  exact c1_error_edge_semantics.1 errNoEdgeFd 99 (seedStore [] "F") "start" 0
    { node_class := raisingNode, transitions := [] } (by decide) rfl
    (by decide) rfl

/-- C2 (code bug evidence): the max-steps guard `if steps >= max_steps`
(flows/base.py line 121) does not test whether the loop already reached
"end", so the one-node flow run with max_steps = 1 — which reaches "end" in
exactly one step — is returned both completed and carrying the "exceeded
maximum steps" error action and message, contradicting the claim (and the
meaning of the completion flag and of the error text). -/
theorem c2_maxsteps_error_despite_completion :
    storeGet (flowRun echoFd "F" [] 1) "_flow_completed"
      = some (Value.bool true)
  ∧ storeGet (flowRun echoFd "F" [] 1) "_flow_steps" = some (Value.nat 1)
  ∧ storeGet (flowRun echoFd "F" [] 1) "action" = some (Value.str "error")
  ∧ storeGet (flowRun echoFd "F" [] 1) "error"
      = some (Value.str "Flow exceeded maximum steps (1)") :=
  ⟨by decide, by decide, by decide, by decide⟩

/-- C6: a run of a validly constructed flow whose nodes keep the
interpreter-owned path key bound to a list (the data-model discipline;
without it line 80 of flows/base.py raises) does not raise — in the exact
model `flowRunE`, in which the uncaught exception of line 80 is
representable as `none`, it returns `some` of exactly the context `flowRun`
computes — and that context carries the reserved path, step-count and
completion-flag keys, with the completion flag true iff the loop exited at
"end". -/
theorem c6_run_returns_bookkeeping (fd : FlowDefinition) (flowName : String)
    (store : Store) (maxSteps : Nat)
    (_hval : validateOkB fd = true)
    (hnodes : ∀ i c, fdLookup fd i = some c → ∀ st,
      pathIsList st = true →
      pathIsList (BaseNode.run c.node_class st) = true) :
    flowRunE fd flowName store maxSteps
      = some (flowRun fd flowName store maxSteps)
  ∧ (storeGet (flowRun fd flowName store maxSteps) "_flow_path").isSome = true
  ∧ (storeGet (flowRun fd flowName store maxSteps) "_flow_steps").isSome
      = true
  ∧ storeGet (flowRun fd flowName store maxSteps) "_flow_completed"
      = some (Value.bool
          ((runLoopF fd maxSteps (seedStore store flowName) "start" 0).2.1
            == "end")) := by
  have hseed : pathIsList (seedStore store flowName) = true := by
    simp [pathIsList, seedStore, storeGet_set_self]
  refine ⟨flowRunE_eq fd flowName store maxSteps hnodes, ?_, ?_, ?_⟩
  · simp only [flowRun]
    rw [storeGet_set_ne _ _ _ _ (by decide),
      storeGet_set_ne _ _ _ _ (by decide)]
    have hinv := runLoopF_pathIsList fd hnodes maxSteps
      (seedStore store flowName) "start" 0 hseed
    by_cases hm : maxSteps ≤
        (runLoopF fd maxSteps (seedStore store flowName) "start" 0).2.2
    · rw [if_pos hm, storeGet_set_ne _ _ _ _ (by decide),
        storeGet_set_ne _ _ _ _ (by decide)]
      exact pathIsList_isSome _ hinv
    · rw [if_neg hm]
      exact pathIsList_isSome _ hinv
  · simp only [flowRun]
    rw [storeGet_set_ne _ _ _ _ (by decide), storeGet_set_self]
    rfl
  · simp only [flowRun]
    rw [storeGet_set_self]

/-- Witness for C6: a concrete completed run does not raise and carries the
bookkeeping keys. -/
theorem c6_run_returns_bookkeeping_witness :
    flowRunE echoFd "F" [] 10 = some (flowRun echoFd "F" [] 10)
  ∧ (storeGet (flowRun echoFd "F" [] 10) "_flow_path").isSome = true
  ∧ (storeGet (flowRun echoFd "F" [] 10) "_flow_steps").isSome = true
  ∧ storeGet (flowRun echoFd "F" [] 10) "_flow_completed"
      = some (Value.bool
          ((runLoopF echoFd 10 (seedStore [] "F") "start" 0).2.1
            == "end")) := by
  apply c6_run_returns_bookkeeping echoFd "F" [] 10 (by decide)
  intro i c hic st hst
  simp only [echoFd, fdLookup] at hic
  by_cases hi : "start" = i
  · rw [if_pos hi] at hic
    injection hic with hc
    subst hc
    show pathIsList (BaseNode.run echoNode st) = true
    rw [echoNode_run_id]
    exact hst
  · rw [if_neg hi] at hic
    cases hic

/-- C8: every run executes at most max_steps steps (the recorded step count
never exceeds the budget), and the concrete self-loop flow run with
max_steps = 5 stops after exactly 5 steps, incomplete and carrying the
"exceeded maximum steps" error message. -/
theorem c8_step_budget :
    (∀ fd flowName store maxSteps, ∃ n,
       storeGet (flowRun fd flowName store maxSteps) "_flow_steps"
         = some (Value.nat n) ∧ n ≤ maxSteps)
  ∧ storeGet (flowRun loopFd "L" [] 5) "_flow_steps" = some (Value.nat 5)
  ∧ storeGet (flowRun loopFd "L" [] 5) "_flow_completed"
      = some (Value.bool false)
  ∧ storeGet (flowRun loopFd "L" [] 5) "error"
      = some (Value.str "Flow exceeded maximum steps (5)") := by
  refine ⟨?_, by decide, by decide, by decide⟩
  intro fd flowName store maxSteps
  refine ⟨(runLoopF fd maxSteps (seedStore store flowName) "start" 0).2.2,
    ?_, ?_⟩
  · simp only [flowRun]
    rw [storeGet_set_ne _ _ _ _ (by decide), storeGet_set_self]
  · have h := runLoopF_steps_le fd maxSteps (seedStore store flowName)
      "start" 0
    omega

/-- C9: for a flow definition that passed construction-time validation, the
"Unknown node" abort branch is never taken during a run from "start",
whatever the fuel and the initial store. -/
theorem c9_unknown_branch_unreachable (fd : FlowDefinition)
    (hval : validateOkB fd = true) (fuel : Nat) (store : Store) :
    unknownReachedF fd fuel store "start" = false := by
  apply unknownReachedF_false_of_valid fd hval
  exact Or.inr ((validateOkB_spec fd).mp hval).1

/-- Witness for C9: the concrete validated one-node flow never reaches the
unknown-node branch. -/
theorem c9_unknown_branch_unreachable_witness :
    unknownReachedF echoFd 100 [] "start" = false :=
  c9_unknown_branch_unreachable echoFd (by decide) 100 []
